import Mathlib

/-!
# A verification development for the stac-asset download engine

This file gives a shallow embedding, in Lean 4, of the download
orchestration engine of the `stac-asset` repository, and proves (or
refutes) a collection of claims about it.

The embedding follows the newest revision of the engine present in the
repository sources: `src/stac_asset/_functions.py` (the `Downloads` batch
scheduler, `Download` per-asset state machine, `download_asset`,
`assert_asset_exists`, `asset_exists`, `get_absolute_asset_href`),
`src/stac_asset/config.py` (`Config`, `Config.validate`),
`src/stac_asset/functions.py` (`guess_client_class`,
`guess_client_class_from_href`), `src/stac_asset/errors.py` and
`src/stac_asset/messages.py`.

Modelling conventions:

* Python dictionaries (insertion ordered) are modelled by association
  lists, and Python sets by insertion-ordered duplicate-free lists (only
  the *contents* of a set are ever observable in the engine, via
  `list(...)`).
* Fallible Python code (raising exceptions) is modelled with
  `Except Err`; `Err` mirrors the error taxonomy of `errors.py`.
  Exception messages that are produced by f-string interpolation are
  modelled by their constant prefix.
* In-place mutation of `pystac` objects is modelled by explicit state
  passing: functions return the updated `Asset` / `StacObject`.
* External I/O (the network fetch performed by `client.download_href`,
  the existence probe `client.assert_href_exists`, and the filesystem
  `os.path.exists` checks) is modelled by oracle parameters supplied in a
  `TaskEnv`; the hrefs actually handed to the network layer are collected
  in an `opened` trace so that "no network I/O" is a provable statement.
* URL parsing (the external `yarl`/`urllib` libraries) is modelled by a
  small scheme/host/path splitter that agrees with `yarl.URL` on the href
  shapes the engine distinguishes; `pystac.utils` href helpers
  (`is_absolute_href`, `make_absolute_href`, `Asset.get_absolute_href`)
  are modelled directly from their pystac sources, without `..`
  normalization (never observed by the claims).
* The cooperative asyncio scheduler is modelled deterministically: tasks
  run in creation order (each task body has no true suspension point in
  the model), which is one admissible schedule of the event loop;
  `asyncio.gather` collects results in argument order, and with
  `fail_fast` the first raising task causes the not-yet-started tasks to
  be cancelled, exactly as in `Downloads.download`.  The
  semaphore-bounded concurrency of `download_with_lock` is additionally
  modelled nondeterministically, as a small-step transition system, for
  the concurrency-bound claim.
-/

namespace StacAsset

/-! ## URLs and path/href utilities (models of `yarl` and `pystac.utils`)

The Lean core string-splitting functions are replaced by structurally
recursive char-list primitives, so that every definition evaluates by
kernel reduction on concrete inputs. -/

/-- Split a character list at every occurrence of `sep` (the behavior of
Python's `str.split(sep)` for a one-character separator). -/
def splitOnChar (sep : Char) : List Char → List (List Char)
  | [] => [[]]
  | c :: rest =>
    if c = sep then [] :: splitOnChar sep rest
    else
      match splitOnChar sep rest with
      | [] => [[c]]
      | p :: ps => (c :: p) :: ps

/-- Join character lists with the separator `sep` (inverse of
`splitOnChar`). -/
def joinWithChar (sep : Char) : List (List Char) → List Char
  | [] => []
  | [p] => p
  | p :: ps => p ++ sep :: joinWithChar sep ps

/-- Split at the first occurrence of `"://"`, returning the part before
(the scheme) and the part after. -/
def findSchemeSplit : List Char → Option (List Char × List Char)
  | ':' :: '/' :: '/' :: rest => some ([], rest)
  | c :: rest =>
    match findSchemeSplit rest with
    | some (s, r) => some (c :: s, r)
    | none => none
  | [] => none

/-- `s.startswith(p)`. -/
def strStartsWith (s p : String) : Bool :=
  p.data.isPrefixOf s.data

/-- `s.endswith(p)`. -/
def strEndsWith (s p : String) : Bool :=
  p.data.isSuffixOf s.data

/-- Model of a parsed URL: the scheme (`""` when absent), the host
(`none` when absent) and the path component, as exposed by `yarl.URL`. -/
structure Url where
  scheme : String
  host : Option String
  path : String
deriving Repr, DecidableEq

/-- Model of `yarl.URL(href)` restricted to the observations the engine
makes (`.scheme`, `.host`, `.path`): an href of the form
`scheme://host/path` is split at `"://"` and at the first `/` after the
host; anything without `"://"` is a plain path with no scheme or host. -/
def parseUrl (href : String) : Url :=
  match findSchemeSplit href.data with
  | none => { scheme := "", host := none, path := href }
  | some (s, r) =>
    match splitOnChar '/' r with
    | [] => { scheme := String.mk s, host := none, path := "" }
    | h :: ps =>
      { scheme := String.mk s
        host := if h.isEmpty then none else some (String.mk h)
        path := if ps.isEmpty then "" else String.mk ('/' :: joinWithChar '/' ps) }

/-- Model of `os.path.basename` (POSIX): the part after the last `/`. -/
def basename (path : String) : String :=
  String.mk ((splitOnChar '/' path.data).getLastD [])

/-- Index of the last `.` in a list of characters, if any. -/
def lastDotIdx : List Char → Option Nat
  | [] => none
  | c :: cs =>
    match lastDotIdx cs with
    | some i => some (i + 1)
    | none => if c = '.' then some 0 else none

/-- Model of `pathlib.PurePath(p).suffix`: the extension (with its dot)
of the final component, empty when the last dot is leading or trailing. -/
def pathSuffix (p : String) : String :=
  let name := (basename p).data
  match lastDotIdx name with
  | none => ""
  | some i => if 0 < i ∧ i < name.length - 1 then String.mk (name.drop i) else ""

/-- Model of `pystac.utils.is_absolute_href`: true when the href has a
scheme or its path component is an absolute filesystem path. -/
def is_absolute_href (href : String) : Bool :=
  let url := parseUrl href
  !url.scheme.isEmpty || strStartsWith url.path "/"

/-- Model of `os.path.dirname` (POSIX): everything before the last `/`. -/
def dirname (p : String) : String :=
  String.mk (joinWithChar '/' ((splitOnChar '/' p.data).dropLast))

/-- Model of `os.getcwd()`: the process working directory, an external
constant of the execution environment. -/
def CWD : String := "/cwd"

/-- Model of `pystac.utils.make_absolute_href`: an absolute source href
is returned unchanged; a relative one is joined onto the start href's
directory (or the working directory when no start href is given).  `..`
normalization is omitted. -/
def make_absolute_href (source_href : String) (start_href : Option String)
    (start_is_dir : Bool) : String :=
  if is_absolute_href source_href then source_href
  else
    match start_href with
    | none => CWD ++ "/" ++ source_href
    | some s =>
      let d := if start_is_dir then s else dirname s
      d ++ "/" ++ source_href

/-! ## Strategies (`strategy.py`) and errors (`errors.py`) -/

/-- `FileNameStrategy` from `strategy.py`. -/
inductive FileNameStrategy
  | FILE_NAME
  | KEY
deriving Repr, DecidableEq

/-- Modelled from the spec: the `ErrorStrategy` enum referenced by
`_functions.py` is declared in a `strategy.py` revision that is absent
from the sources; its two constructors `DELETE` ("remove the asset from
its owner") and `KEEP` ("leave the asset's URI untouched") are pinned by
its uses in `Downloads.download` (`_functions.py`, lines 161-166). -/
inductive ErrorStrategy
  | DELETE
  | KEEP
deriving Repr, DecidableEq

/-- The error taxonomy: constructors mirror the exception classes of
`errors.py` (`AssetOverwriteError`, `DownloadError`) together with the
builtin exceptions the engine raises (`ValueError`, `FileNotFoundError`,
`pystac.STACError`), `ConfigError` (declared in an `errors.py` revision
absent from the sources, raised by `Config.validate`), and an opaque
`clientError` for failures produced inside a backend client. -/
inductive Err
  | configError (msg : String)
  | assetOverwriteError (hrefs : List String)
  | valueError (msg : String)
  | stacError (msg : String)
  | fileNotFoundError (msg : String)
  | clientError (msg : String)
  | downloadError (exceptions : List Err)
deriving Repr

/-! ## Configuration (`config.py`) -/

/-- `Config` from `config.py`, restricted to the fields the download
engine reads (the per-backend tuning fields — http/s3/oauth2 — are only
ever passed through to backend constructors, which are external
collaborators).  The Python field `include` is spelled `include_`
because `include` is a Lean keyword. -/
structure Config where
  alternate_assets : List String := []
  file_name_strategy : FileNameStrategy := .FILE_NAME
  warn : Bool := false
  fail_fast : Bool := false
  error_strategy : ErrorStrategy := .DELETE
  exclude : List String := []
  include_ : List String := []
  make_directory : Bool := true
  clean : Bool := true
  overwrite : Bool := false
  client_override : Option String := none
deriving Repr

/-- `Config.validate` from `config.py` (lines 168-180): `include` and
`exclude` are mutually exclusive (Python truthiness: both non-empty),
and so are `warn` and `fail_fast`. -/
def Config.validate (config : Config) : Except Err Unit :=
  if !config.include_.isEmpty && !config.exclude.isEmpty then
    .error (.configError "cannot provide both include and exclude")
  else if config.warn && config.fail_fast then
    .error (.configError "cannot warn and fail fast as the same time")
  else
    .ok ()

/-! ## Backend (client) classification (`functions.py`, `client.py`) -/

/-- The client classes a URI can be dispatched to
(`filesystem_client.py`, `s3_client.py`, `planetary_computer_client.py`,
`http_client.py`). -/
inductive ClientClass
  | FilesystemClient
  | S3Client
  | PlanetaryComputerClient
  | HttpClient
deriving Repr, DecidableEq

/-- `guess_client_class_from_href` from `functions.py` (lines 184-203):
no host means the filesystem client, scheme `s3` the S3 client, a host
with suffix `blob.core.windows.net` the Planetary Computer client,
scheme `http`/`https` the plain HTTP client; anything else raises. -/
def guess_client_class_from_href (href : String) : Except Err ClientClass :=
  let url := parseUrl href
  if url.host.isNone then .ok .FilesystemClient
  else if url.scheme = "s3" then .ok .S3Client
  else if strEndsWith (url.host.getD "") "blob.core.windows.net" then
    .ok .PlanetaryComputerClient
  else if url.scheme = "http" || url.scheme = "https" then .ok .HttpClient
  else .error (.valueError "could not guess client class for href")

/-- Modelled from the spec: the string names under which a client class
can be requested via `Config.client_override` (the name-to-class table
lives in the `client.py` revision absent from the sources; the names are
the backend kinds the spec enumerates). -/
def clientClassForName (name : String) : Except Err ClientClass :=
  if name = "filesystem" then .ok .FilesystemClient
  else if name = "s3" then .ok .S3Client
  else if name = "planetary-computer" then .ok .PlanetaryComputerClient
  else if name = "http" then .ok .HttpClient
  else .error (.valueError "unknown client name")

/-- Modelled from the spec: backend resolution for an href, honoring the
explicit `Config.client_override` first (per `config.py` lines 64-68:
"Use the same client for all asset requests.  If not set, each asset's
client will be guessed from its href").  The override dispatch lives in
the `Clients` class of the `client.py` revision absent from the sources;
the href classification itself is `guess_client_class_from_href`. -/
def resolveBackend (config : Config) (href : String) : Except Err ClientClass :=
  match config.client_override with
  | some name => clientClassForName name
  | none => guess_client_class_from_href href

/-! ## STAC data model (`pystac` objects, as the engine observes them) -/

/-- An alternate-asset entry: the JSON object stored under one key of an
asset's `alternate` map, modelled as an association list of its string
fields (`"href"` is the one the engine reads). -/
def AlternateEntry := List (String × String)
deriving Repr, DecidableEq

/-- `pystac.Asset`, restricted to the fields the engine observes:
`href`, `media_type`, and `extra_fields["alternate"]`.  A missing or
non-dict `alternate` field is `none` (the engine's `isinstance` guard
collapses non-dict values to `None`). -/
structure Asset where
  href : String
  media_type : Option String := none
  alternate : Option (List (String × AlternateEntry)) := none
deriving Repr

/-- `pystac.Link`, restricted to the fields the engine observes. -/
structure Link where
  rel : String
  target : String
deriving Repr, DecidableEq

/-- A STAC `Item`/`Collection` as the engine observes it: an id, an
insertion-ordered asset mapping, links, and the self href. -/
structure StacObject where
  id : String
  assets : List (String × Asset) := []
  links : List Link := []
  self_href : Option String := none
deriving Repr

/-- Model of `pystac.Link.get_absolute_href`: the target itself when
absolute, else the target resolved against the owner's self href (or
nothing when the owner has none). -/
def Link.get_absolute_href (link : Link) (owner_self_href : Option String) :
    Option String :=
  if is_absolute_href link.target then some link.target
  else
    match owner_self_href with
    | some s => some (make_absolute_href link.target (some s) false)
    | none => none

/-- Model of `pystac.Asset.get_absolute_href`: the asset's href when
absolute; otherwise resolved against the owner's self href, or `none`
when the asset has no owner. -/
def Asset.get_absolute_href (asset : Asset) (owner : Option StacObject) :
    Option String :=
  if is_absolute_href asset.href then some asset.href
  else
    match owner with
    | some o => some (make_absolute_href asset.href o.self_href false)
    | none => none

/-- `get_absolute_asset_href` from `_functions.py` (lines 602-623): when
the config names preferred alternates and the asset carries an
`alternate` map, the first configured name present wins and its `href`
field is made absolute (a present entry without an `href` field raises
`ValueError`); otherwise the asset's own absolute href is used. -/
def get_absolute_asset_href (asset : Asset) (alternate_assets : List String)
    (owner : Option StacObject) : Except Err (Option String) :=
  let alternate := asset.alternate
  match alternate with
  | some alt =>
    if !alt.isEmpty && !alternate_assets.isEmpty then
      match pickAlternate alt alternate_assets with
      | some entry =>
        match entry.lookup "href" with
        | some href =>
          let start_href := match owner with
            | some o => o.self_href
            | none => none
          .ok (some (make_absolute_href href start_href false))
        | none =>
          .error (.valueError "invalid alternate asset definition (missing href)")
      | none => .ok (asset.get_absolute_href owner)
    else .ok (asset.get_absolute_href owner)
  | none => .ok (asset.get_absolute_href owner)
where
  /-- The `for alternate_asset in alternate_assets` loop: the entry of
  the first configured name present in the asset's `alternate` map. -/
  pickAlternate (alt : List (String × AlternateEntry)) :
      List String → Option AlternateEntry
    | [] => none
    | a :: rest =>
      match alt.lookup a with
      | some entry => some entry
      | none => pickAlternate alt rest

/-- `guess_client_class` from `functions.py` (lines 153-181): alternate
substitution followed by href classification.  The Python function
mutates `asset.href` to the picked alternate href; the model returns the
updated asset alongside the chosen class. -/
def guess_client_class (asset : Asset) (config : Config) :
    Except Err (ClientClass × Asset) :=
  let alternate := asset.alternate
  match alternate with
  | some alt =>
    if !alt.isEmpty && !config.alternate_assets.isEmpty then
      match get_absolute_asset_href.pickAlternate alt config.alternate_assets with
      | some entry =>
        match entry.lookup "href" with
        | some href => do
          let cls ← guess_client_class_from_href href
          .ok (cls, { asset with href := href })
        | none =>
          .error (.valueError "invalid alternate asset definition (missing href)")
      | none => do
        let cls ← guess_client_class_from_href asset.href
        .ok (cls, asset)
    else do
      let cls ← guess_client_class_from_href asset.href
      .ok (cls, asset)
  | none => do
    let cls ← guess_client_class_from_href asset.href
    .ok (cls, asset)

/-! ## Progress messages (`messages.py`) -/

/-- The progress messages of `messages.py`, each carrying the fields of
the corresponding dataclass. -/
inductive Message
  | startAssetDownload (key : String) (owner_id : Option String) (href : String)
      (path : String)
  | errorAssetDownload (key : String) (href : String) (path : String) (error : Err)
  | skipAssetDownload (key : String) (path : String)
  | finishAssetDownload (key : String) (href : String) (path : String)
deriving Repr

/-! ## Href absolutization (`_functions.py`, lines 550-599) -/

/-- The per-asset step of `make_asset_hrefs_absolute`: a relative href
with no self href set raises `STACError`. -/
def absolutizeAsset (self_href : Option String) (asset : Asset) : Except Err Asset :=
  if is_absolute_href asset.href then .ok asset
  else
    match self_href with
    | none => .error (.stacError "Cannot make asset HREFs absolute if no self_href is set.")
    | some s => .ok { asset with href := make_absolute_href asset.href (some s) false }

/-- `make_asset_hrefs_absolute` from `_functions.py` (lines 568-583). -/
def make_asset_hrefs_absolute (stac_object : StacObject) : Except Err StacObject := do
  let assets ← stac_object.assets.mapM fun ka => do
    let a ← absolutizeAsset stac_object.self_href ka.2
    pure (ka.1, a)
  pure { stac_object with assets := assets }

/-- `make_link_hrefs_absolute` from `_functions.py` (lines 586-599):
links whose href can be made absolute are kept (with the absolute
target); with `drop` (the default) the others are silently dropped,
otherwise a `ValueError` is raised. -/
def make_link_hrefs_absolute (stac_object : StacObject) (drop : Bool := true) :
    Except Err StacObject := do
  let links ← stac_object.links.filterMapM fun link =>
    match link.get_absolute_href stac_object.self_href with
    | some absolute_href => pure (some { link with target := absolute_href })
    | none =>
      if drop then pure none
      else .error (.valueError "cannot make link hrefs absolute")
  pure { stac_object with links := links }

/-! ## The download batch (`_functions.py`) -/

/-- The `Download` dataclass of `_functions.py` (lines 34-41); the
shared `clients` cache is modelled by `resolveBackend`. -/
structure Download where
  owner : StacObject
  key : String
  asset : Asset
  path : String
  config : Config
deriving Repr

/-- The `Downloads` batch of `_functions.py` (lines 70-81): a validated
config, the registered downloads, and the semaphore capacity. -/
structure Downloads where
  config : Config
  downloads : List Download := []
  max_concurrent_downloads : Nat
deriving Repr

/-- `Downloads.__init__` (lines 71-81): the config is validated before
anything else; no download is registered and no I/O is performed. -/
def Downloads.init (config : Config)
    (max_concurrent_downloads : Nat := 500) : Except Err Downloads :=
  match config.validate with
  | .error e => .error e
  | .ok _ => .ok { config := config, downloads := [], max_concurrent_downloads }

/-- The destination file name of one asset under the configured naming
strategy (`_functions.py`, lines 109-116): `FILE_NAME` takes the
basename of the href's URL path, `KEY` the asset key plus the href's
path suffix.  (The `else` branch of the source is unreachable: the enum
has exactly these two members.) -/
def assetFileName (config : Config) (key : String) (asset : Asset) : String :=
  match config.file_name_strategy with
  | .FILE_NAME => basename (parseUrl asset.href).path
  | .KEY => key ++ pathSuffix asset.href

/-- The include/exclude filter of the asset loop (`_functions.py`, lines
103-108): an asset key is in scope when it passes the (possibly empty)
`include` list and is absent from the `exclude` list. -/
def inScope (config : Config) (key : String) : Bool :=
  (config.include_.isEmpty || config.include_.contains key)
    && (config.exclude.isEmpty || !config.exclude.contains key)

/-- The asset loop of `Downloads.add` (`_functions.py`, lines 101-131):
walks the owner's assets in order, skipping out-of-scope keys, and
accumulates the set of file names seen so far (`asset_file_names`, here
an insertion-ordered duplicate-free list), the kept assets, and the
`(key, asset, file name)` download plans; a file name already seen
raises `AssetOverwriteError` carrying the names seen so far. -/
def addLoop (config : Config) :
    List (String × Asset) → List String →
    Except Err (List String × List (String × Asset) × List (String × Asset × String))
  | [], seen => .ok (seen, [], [])
  | (key, asset) :: rest, seen =>
    if inScope config key then
      let name := assetFileName config key asset
      if seen.contains name then .error (.assetOverwriteError seen)
      else
        match addLoop config rest (seen ++ [name]) with
        | .error e => .error e
        | .ok (seen', kept, plans) =>
          .ok (seen', (key, asset) :: kept, (key, asset, name) :: plans)
    else addLoop config rest seen

/-- `Downloads.add` from `_functions.py` (lines 83-135): absolutize link
and asset hrefs, record a `derived_from` link, move the self href under
the destination root, then plan one download per in-scope asset,
rejecting the batch on a destination file-name collision.  Returns the
extended batch together with the updated owner. -/
def Downloads.add (ds : Downloads) (stac_object : StacObject) (root : String)
    (file_name : Option String) (keep_non_downloaded : Bool) :
    Except Err (Downloads × StacObject) :=
  match make_link_hrefs_absolute stac_object with
  | .error e => .error e
  | .ok so =>
    -- Will fail if the stac object doesn't have a self href and there's
    -- relative asset hrefs
    match make_asset_hrefs_absolute so with
    | .error e => .error e
    | .ok so =>
      -- `if self_href := stac_object.get_self_href():` — Python truthiness,
      -- so an empty self href adds no link
      let so := match so.self_href with
        | some self_href =>
          if self_href.isEmpty then so
          else { so with links := so.links ++ [(⟨"derived_from", self_href⟩ : Link)] }
        | none => so
      let so := { so with self_href :=
        match file_name with
        | some fn => if fn.isEmpty then none else some (root ++ "/" ++ fn)
        | none => none }
      match addLoop ds.config so.assets [] with
      | .error e => .error e
      | .ok (_, kept, plans) =>
        let so := if keep_non_downloaded then so else { so with assets := kept }
        let downloads := plans.map fun plan =>
          { owner := so, key := plan.1, asset := plan.2.1,
            path := root ++ "/" ++ plan.2.2, config := ds.config : Download }
        .ok ({ ds with downloads := ds.downloads ++ downloads }, so)

/-! ## The per-asset download (`download_asset`, `Download.download`) -/

/-- The external environment of one download task: whether the
destination path and its parent directory exist on disk
(`os.path.exists` / `path.parent.exists()`), and the outcome of the
backend transfer `client.download_href` (the network oracle). -/
structure TaskEnv where
  pathExists : Bool
  parentExists : Bool := true
  fetch : Except Err Unit := .ok ()
deriving Repr

/-- The observable outcome of `download_asset`: the progress messages
put on the queue, the hrefs handed to `client.download_href` (each entry
is one network transfer started), the destination paths written, and the
result (the asset with its href rewritten, or the raised error). -/
structure AssetOut where
  msgs : List Message := []
  opened : List String := []
  wrote : List String := []
  result : Except Err Asset
deriving Repr

/-- `download_asset` from `_functions.py` (lines 384-456): check (and if
allowed create) the parent directory, resolve the absolute href
(including alternate substitution), resolve the client, emit `Start`,
run the transfer, emit `Error` and re-raise on failure, else rewrite the
asset href to the destination path and emit `Finish`.  `messages` is
whether a progress queue was supplied. -/
def download_asset (key : String) (asset : Asset) (path : String)
    (config : Config) (owner : Option StacObject) (messages : Bool)
    (env : TaskEnv) : AssetOut :=
  if !env.parentExists && !config.make_directory then
    { result := .error (.fileNotFoundError "output directory does not exist") }
  else
    match get_absolute_asset_href asset config.alternate_assets owner with
    | .error e => { result := .error e }
    | .ok none =>
      { result := .error (.valueError "asset does not have an absolute href") }
    | .ok (some href) =>
      match resolveBackend config href with
      | .error e => { result := .error e }
      | .ok _client =>
        let owner_id := owner.map StacObject.id
        let startMsgs :=
          if messages then [Message.startAssetDownload key owner_id href path] else []
        match env.fetch with
        | .error e =>
          { msgs := startMsgs
              ++ (if messages then [Message.errorAssetDownload key href path e] else [])
            opened := [href]
            result := .error e }
        | .ok () =>
          { msgs := startMsgs
              ++ (if messages then [Message.finishAssetDownload key href path] else [])
            opened := [href]
            wrote := [path]
            result := .ok { asset with href := path } }

/-- `WrappedError` from `_functions.py` (lines 199-205). -/
structure WrappedError where
  download : Download
  error : Err
deriving Repr

/-- The observable outcome of one `Download.download` task: the task's
return value (`Download` on success, `WrappedError` on a per-asset
failure without `fail_fast`) or the exception it raises (`fail_fast`
only), plus the message/transfer/write traces. -/
structure TaskOut where
  msgs : List Message := []
  opened : List String := []
  wrote : List String := []
  result : Except Err (Download ⊕ WrappedError)
deriving Repr

/-- `Download.download` from `_functions.py` (lines 43-67): when the
destination is missing or `overwrite` is set, run `download_asset`
(raising under `fail_fast`, wrapping otherwise); when the destination
exists and `overwrite` is unset, emit `Skip` and touch nothing.  On
every non-error path the asset's href is rewritten to the destination
path. -/
def Download.download (d : Download) (messages : Bool) (env : TaskEnv) : TaskOut :=
  if !env.pathExists || d.config.overwrite then
    let out := download_asset d.key d.asset d.path d.config (some d.owner) messages env
    match out.result with
    | .error e =>
      if d.config.fail_fast then
        { msgs := out.msgs, opened := out.opened, wrote := out.wrote,
          result := .error e }
      else
        { msgs := out.msgs, opened := out.opened, wrote := out.wrote,
          result := .ok (.inr { download := d, error := e }) }
    | .ok _ =>
      { msgs := out.msgs, opened := out.opened, wrote := out.wrote,
        result := .ok (.inl { d with asset := { d.asset with href := d.path } }) }
  else
    { msgs := if messages then [Message.skipAssetDownload d.key d.path] else [],
      result := .ok (.inl { d with asset := { d.asset with href := d.path } }) }

/-! ## The batch scheduler (`Downloads.download`) -/

/-- The final state of one task after the batch settles: finished with a
return value, finished by raising (the `fail_fast` exception), or
cancelled (and awaited) by the fail-fast unwinding. -/
inductive TaskStatus
  | completed (r : Download ⊕ WrappedError)
  | failed (e : Err)
  | cancelled
deriving Repr

/-- The outcome of running the batch's tasks. -/
structure RunOut where
  raised : Option Err := none
  tasks : List TaskStatus := []
  msgs : List Message := []
  opened : List String := []
  wrote : List String := []
deriving Repr

/-- The task pool of `Downloads.download` (`_functions.py`, lines
140-156) under the deterministic schedule in which tasks run in creation
order: each task settles in turn; the first task to raise (possible only
under `fail_fast`) makes `asyncio.gather` propagate its exception, upon
which every not-yet-completed task is cancelled and awaited.  (The
source keeps its tasks in a Python `set`, so the order in which `gather`
receives them — and hence the order of `results` — is an arbitrary set
iteration order; the model fixes creation order.  No claim depends on
that order: failures are aggregated as a whole, and the owner mutations
touch pairwise distinct keys.) -/
def runTasks (messages : Bool) : List (Download × TaskEnv) → RunOut
  | [] => {}
  | (d, env) :: rest =>
    let out := d.download messages env
    match out.result with
    | .ok r =>
      let run := runTasks messages rest
      { raised := run.raised, tasks := .completed r :: run.tasks,
        msgs := out.msgs ++ run.msgs, opened := out.opened ++ run.opened,
        wrote := out.wrote ++ run.wrote }
    | .error e =>
      { raised := some e, tasks := .failed e :: rest.map (fun _ => .cancelled),
        msgs := out.msgs, opened := out.opened, wrote := out.wrote }

/-- Replace the asset stored under `key` (Python mutates the aliased
`Asset` object in place, so the owner's mapping sees the new href). -/
def assocUpdate (key : String) (asset : Asset) :
    List (String × Asset) → List (String × Asset) :=
  List.map fun ka => if ka.1 = key then (ka.1, asset) else ka

/-- `del owner.assets[key]`. -/
def assocErase (key : String) (assets : List (String × Asset)) :
    List (String × Asset) :=
  assets.filter fun ka => ka.1 ≠ key

/-- The successful tasks' in-place href rewrites, as seen by the owner's
asset mapping (these happen inside `Download.download`, through
aliasing, even when the batch later raises). -/
def applySuccesses (owner : StacObject) (tasks : List TaskStatus) : StacObject :=
  { owner with assets := tasks.foldl (fun assets t =>
      match t with
      | .completed (.inl d) => assocUpdate d.key d.asset assets
      | _ => assets) owner.assets }

/-- The result-processing loop of `Downloads.download` (`_functions.py`,
lines 158-173), walked over the settled results in order: a
`WrappedError` deletes the asset from its owner when the error strategy
is `DELETE` (and only then — the `else` branch asserts `KEEP` and leaves
the owner alone), and is surfaced as a warning when `warn` is set, else
collected; a successful `Download` is the aliased href rewrite.
Returns the owner, the warnings emitted, and the collected
exceptions. -/
def processResults (config : Config) (owner : StacObject)
    (warnings exceptions : List Err) :
    List (Download ⊕ WrappedError) → StacObject × List Err × List Err
  | [] => (owner, warnings, exceptions)
  | .inl d :: rest =>
    processResults config { owner with assets := assocUpdate d.key d.asset owner.assets }
      warnings exceptions rest
  | .inr w :: rest =>
    let owner :=
      if config.error_strategy = .DELETE then
        { owner with assets := assocErase w.download.key owner.assets }
      else owner
    if config.warn then
      processResults config owner (warnings ++ [w.error]) exceptions rest
    else
      processResults config owner warnings (exceptions ++ [w.error]) rest

/-- The settled results of the pool, in creation order (what
`asyncio.gather` returns when no task raised). -/
def collectResults (tasks : List TaskStatus) : List (Download ⊕ WrappedError) :=
  tasks.filterMap fun t =>
    match t with
    | .completed r => some r
    | _ => none

/-- The observable outcome of `Downloads.download`. -/
structure BatchOut where
  result : Except Err Unit
  tasks : List TaskStatus
  owner : StacObject
  warnings : List Err := []
  msgs : List Message := []
  opened : List String := []
  wrote : List String := []
deriving Repr

/-- `Downloads.download` from `_functions.py` (lines 137-173): run one
task per registered download; if a task raises (`fail_fast`), cancel and
await the not-yet-completed tasks and re-raise; otherwise partition the
settled results, apply the error strategy and warn/collect policy per
failure, and raise one aggregate `DownloadError` at the very end if any
exception was collected.  The batch's owner mutations are threaded
explicitly. -/
def Downloads.download (ds : Downloads) (owner : StacObject)
    (envs : List TaskEnv) (messages : Bool) : BatchOut :=
  let run := runTasks messages (ds.downloads.zip envs)
  match run.raised with
  | some e =>
    -- We failed fast
    { result := .error e, tasks := run.tasks, owner := applySuccesses owner run.tasks,
      msgs := run.msgs, opened := run.opened, wrote := run.wrote }
  | none =>
    let pr := processResults ds.config owner [] [] (collectResults run.tasks)
    { result := if pr.2.2.isEmpty then .ok () else .error (.downloadError pr.2.2),
      tasks := run.tasks, owner := pr.1, warnings := pr.2.1,
      msgs := run.msgs, opened := run.opened, wrote := run.wrote }

/-! ## Existence probes (`assert_asset_exists`, `asset_exists`) -/

/-- `assert_asset_exists` from `_functions.py` (lines 459-484): resolve
the absolute href (raising `ValueError` when there is none), resolve the
client for it, and run the client's existence assertion (`probe`, the
backend oracle, raising on absence). -/
def assert_asset_exists (asset : Asset) (config : Config)
    (owner : Option StacObject) (probe : String → Except Err Unit) :
    Except Err Unit :=
  match get_absolute_asset_href asset config.alternate_assets owner with
  | .error e => .error e
  | .ok (some href) =>
    -- `if href:` — Python truthiness, so an empty href also raises
    if href.isEmpty then .error (.valueError "asset does not have an absolute href")
    else
      match resolveBackend config href with
      | .error e => .error e
      | .ok _client => probe href
  | .ok none => .error (.valueError "asset does not have an absolute href")

/-- `asset_exists` from `_functions.py` (lines 487-507): `True` when
`assert_asset_exists` completes, `False` on any exception. -/
def asset_exists (asset : Asset) (config : Config)
    (owner : Option StacObject) (probe : String → Except Err Unit) : Bool :=
  match assert_asset_exists asset config owner probe with
  | .ok _ => true
  | .error _ => false

/-! ## The concurrency bound (`download_with_lock`, `_functions.py` lines 175-185)

`Downloads.download` guards every task body with the batch semaphore:

    await self.semaphore.acquire()
    try:
        return await download.download(...)
    finally:
        self.semaphore.release()

The interleaving of the task pool is modelled as a small-step transition
system over the phases of the tasks and the semaphore counter, with the
`asyncio.Semaphore` semantics (`acquire` suspends while the counter is
zero, then decrements; `release` increments): a task `acquire`s only
when the counter is positive, any terminating task — normal return,
exception, or cancellation arriving during the download body — releases
its slot through the `finally`, and a task cancelled while still waiting
on `acquire` never held a slot. -/

/-- The phase of one `download_with_lock` task: not yet holding a slot
(created or waiting on `semaphore.acquire`), holding a slot (inside
`download.download`, a backend `open` in flight), terminated through the
`finally` (slot released), or cancelled while still waiting. -/
inductive TaskPhase
  | waiting
  | running
  | done
  | cancelled
deriving Repr, DecidableEq

/-- A state of the task pool: the semaphore counter and the phase of
every task. -/
structure PoolState where
  value : Nat
  phases : List TaskPhase
deriving Repr, DecidableEq

/-- The initial state: `Semaphore(max_concurrent_downloads)` full, one
task per download, none started. -/
def initPool (n m : Nat) : PoolState :=
  { value := n, phases := List.replicate m .waiting }

/-- One scheduler step of the pool. -/
inductive PoolStep : PoolState → PoolState → Prop
  | acquire (v : Nat) (pre post : List TaskPhase) :
      PoolStep { value := v + 1, phases := pre ++ .waiting :: post }
        { value := v, phases := pre ++ .running :: post }
  | finish (v : Nat) (pre post : List TaskPhase) :
      PoolStep { value := v, phases := pre ++ .running :: post }
        { value := v + 1, phases := pre ++ .done :: post }
  | cancel (v : Nat) (pre post : List TaskPhase) :
      PoolStep { value := v, phases := pre ++ .waiting :: post }
        { value := v, phases := pre ++ .cancelled :: post }

/-- The states the pool can reach from `initPool n m`. -/
def PoolReachable (n m : Nat) (s : PoolState) : Prop :=
  Relation.ReflTransGen PoolStep (initPool n m) s

/-- The number of tasks in a list that hold a semaphore slot. -/
def countRunning (phases : List TaskPhase) : Nat :=
  phases.countP (fun p => p = .running)

/-- The number of downloads in flight: tasks holding a semaphore slot. -/
def inFlight (s : PoolState) : Nat :=
  countRunning s.phases

/-- Every task has settled: none is waiting or running. -/
def allSettled (s : PoolState) : Bool :=
  s.phases.all (fun p => p = .done || p = .cancelled)

/-! ## The claims -/

/-- **C9.** For every Config in which both the include set and the
exclude set are non-empty, or in which warn and fail_fast are both set,
validation raises a ConfigError — and `Downloads.__init__`, which
validates first, propagates it before any download is registered or any
I/O scheduled; a Config violating neither condition passes validation
and yields a batch with no downloads registered yet. -/
theorem claim9_config_validation (config : Config) (n : Nat) :
    (config.include_.isEmpty = false ∧ config.exclude.isEmpty = false →
      ∃ msg, config.validate = .error (.configError msg) ∧
        Downloads.init config n = .error (.configError msg)) ∧
    (config.warn = true ∧ config.fail_fast = true →
      ∃ msg, config.validate = .error (.configError msg) ∧
        Downloads.init config n = .error (.configError msg)) ∧
    ((config.include_.isEmpty = true ∨ config.exclude.isEmpty = true) →
      ¬(config.warn = true ∧ config.fail_fast = true) →
      config.validate = .ok () ∧
      Downloads.init config n =
        .ok { config := config, downloads := [], max_concurrent_downloads := n }) := by
  cases hI : config.include_.isEmpty <;> cases hE : config.exclude.isEmpty <;>
    cases hW : config.warn <;> cases hF : config.fail_fast <;>
      simp_all [Config.validate, Downloads.init]

/-- Witness for C9: a config with both filters set and a config with
`warn` and `fail_fast` both set are rejected; the default config
passes. -/
theorem claim9_config_validation_witness :
    (∃ msg, ({ include_ := ["a"], exclude := ["b"] } : Config).validate =
      .error (.configError msg)) ∧
    (∃ msg, ({ warn := true, fail_fast := true } : Config).validate =
      .error (.configError msg)) ∧
    ({} : Config).validate = .ok () := by
  refine ⟨?_, ?_, ?_⟩
  · obtain ⟨msg, h, -⟩ :=
      (claim9_config_validation { include_ := ["a"], exclude := ["b"] } 500).1
        ⟨rfl, rfl⟩
    exact ⟨msg, h⟩
  · obtain ⟨msg, h, -⟩ :=
      (claim9_config_validation { warn := true, fail_fast := true } 500).2.1
        ⟨rfl, rfl⟩
    exact ⟨msg, h⟩
  · exact ((claim9_config_validation {} 500).2.2 (Or.inl rfl) (by simp)).1

/-- **C10.** For every asset and config, `asset_exists` returns a
boolean and never raises: it is `true` exactly when
`assert_asset_exists` completes without exception, `false` for every
exception — including the `ValueError` raised when the asset lacks an
absolute href. -/
theorem claim10_asset_exists (asset : Asset) (config : Config)
    (owner : Option StacObject) (probe : String → Except Err Unit) :
    (asset_exists asset config owner probe = true ↔
      assert_asset_exists asset config owner probe = .ok ()) ∧
    (∀ e, assert_asset_exists asset config owner probe = .error e →
      asset_exists asset config owner probe = false) ∧
    (get_absolute_asset_href asset config.alternate_assets owner = .ok none →
      assert_asset_exists asset config owner probe =
        .error (.valueError "asset does not have an absolute href") ∧
      asset_exists asset config owner probe = false) := by
  refine ⟨?_, ?_, ?_⟩
  · cases h : assert_asset_exists asset config owner probe with
    | ok u => cases u; simp [asset_exists, h]
    | error e => simp [asset_exists, h]
  · intro e h
    simp [asset_exists, h]
  · intro habs
    have h : assert_asset_exists asset config owner probe =
        .error (.valueError "asset does not have an absolute href") := by
      simp [assert_asset_exists, habs]
    exact ⟨h, by simp [asset_exists, h]⟩

/-- Witness for C10: an asset with a relative href and no owner has no
absolute href; the probe raises nothing, yet `asset_exists` is `false`
because `assert_asset_exists` raises `ValueError`. -/
theorem claim10_asset_exists_witness :
    assert_asset_exists { href := "img/x.tif" } {} none (fun _ => .ok ()) =
      .error (.valueError "asset does not have an absolute href") ∧
    asset_exists { href := "img/x.tif" } {} none (fun _ => .ok ()) = false :=
  (claim10_asset_exists { href := "img/x.tif" } {} none (fun _ => .ok ())).2.2 rfl

/-- **C6.** Backend classification of an href is a pure function
evaluating, in order: the explicit override in the Config; no host →
filesystem backend; scheme `s3` → object-storage backend; host suffix
`blob.core.windows.net` → Planetary Computer (signing) backend; scheme
`http`/`https` → plain HTTP backend; any other href → a "could not
guess client class" error. -/
theorem claim6_backend_classification (config : Config) (href : String) :
    (∀ name, config.client_override = some name →
      resolveBackend config href = clientClassForName name) ∧
    (config.client_override = none →
      ((parseUrl href).host = none →
        resolveBackend config href = .ok .FilesystemClient) ∧
      (∀ h, (parseUrl href).host = some h →
        ((parseUrl href).scheme = "s3" →
          resolveBackend config href = .ok .S3Client) ∧
        ((parseUrl href).scheme ≠ "s3" →
          (strEndsWith h "blob.core.windows.net" = true →
            resolveBackend config href = .ok .PlanetaryComputerClient) ∧
          (strEndsWith h "blob.core.windows.net" = false →
            (((parseUrl href).scheme = "http" ∨ (parseUrl href).scheme = "https") →
              resolveBackend config href = .ok .HttpClient) ∧
            ((parseUrl href).scheme ≠ "http" → (parseUrl href).scheme ≠ "https" →
              ∃ msg, resolveBackend config href = .error (.valueError msg)))))) := by
  constructor
  · intro name hov
    simp [resolveBackend, hov]
  · intro hov
    refine ⟨?_, ?_⟩
    · intro hhost
      simp [resolveBackend, hov, guess_client_class_from_href, hhost]
    · intro h hhost
      refine ⟨?_, ?_⟩
      · intro hs3
        simp [resolveBackend, hov, guess_client_class_from_href, hhost, hs3]
      · intro hns3
        refine ⟨?_, ?_⟩
        · intro hblob
          simp [resolveBackend, hov, guess_client_class_from_href, hhost, hns3, hblob]
        · intro hnblob
          refine ⟨?_, ?_⟩
          · rintro (hh | hh) <;>
              simp [resolveBackend, hov, guess_client_class_from_href, hhost, hns3,
                hnblob, hh]
          · intro hh hhs
            refine ⟨"could not guess client class for href", ?_⟩
            simp [resolveBackend, hov, guess_client_class_from_href, hhost, hns3,
              hnblob, hh, hhs]

/-- Witness for C6: one concrete href per branch of the cascade. -/
theorem claim6_backend_classification_witness :
    resolveBackend { client_override := some "http" } "s3://bucket/key" =
      .ok .HttpClient ∧
    resolveBackend {} "/a/b.tif" = .ok .FilesystemClient ∧
    resolveBackend {} "s3://bucket/key" = .ok .S3Client ∧
    resolveBackend {} "https://acct.blob.core.windows.net/c/b.tif" =
      .ok .PlanetaryComputerClient ∧
    resolveBackend {} "https://e.com/x.tif" = .ok .HttpClient ∧
    (∃ msg, resolveBackend {} "ftp://e.com/x.tif" = .error (.valueError msg)) := by
  refine ⟨?_, ?_, ?_, ?_, ?_, ?_⟩
  · exact ((claim6_backend_classification { client_override := some "http" }
      "s3://bucket/key").1 "http" rfl).trans rfl
  · exact ((claim6_backend_classification {} "/a/b.tif").2 rfl).1 rfl
  · exact ((((claim6_backend_classification {} "s3://bucket/key").2 rfl).2
      "bucket" rfl).1) rfl
  · exact (((((claim6_backend_classification {}
      "https://acct.blob.core.windows.net/c/b.tif").2 rfl).2
      "acct.blob.core.windows.net" rfl).2 (by decide)).1) (by decide)
  · exact ((((((claim6_backend_classification {} "https://e.com/x.tif").2 rfl).2
      "e.com" rfl).2 (by decide)).2 (by decide)).1) (Or.inr rfl)
  · exact ((((((claim6_backend_classification {} "ftp://e.com/x.tif").2 rfl).2
      "e.com" rfl).2 (by decide)).2 (by decide)).2) (by decide) (by decide)

/-- **C4.** For an asset whose destination path already exists with
`overwrite` unset, the per-asset download performs no network call and
no write, emits exactly a Skip event, and succeeds (returning the
download with the href rewritten); with `overwrite` set the download
branch is always taken and, whenever the pre-transfer resolution steps
succeed, the asset's href is handed to the network layer. -/
theorem claim4_overwrite_skip (d : Download) (env : TaskEnv) :
    (env.pathExists = true → d.config.overwrite = false →
      (d.download true env).opened = [] ∧
      (d.download true env).wrote = [] ∧
      (d.download true env).msgs = [Message.skipAssetDownload d.key d.path] ∧
      (d.download true env).result =
        .ok (.inl { d with asset := { d.asset with href := d.path } })) ∧
    (d.config.overwrite = true →
      (!env.parentExists && !d.config.make_directory) = false →
      ∀ href,
        get_absolute_asset_href d.asset d.config.alternate_assets (some d.owner) =
          .ok (some href) →
      ∀ c, resolveBackend d.config href = .ok c →
      (d.download true env).opened = [href]) := by
  constructor
  · intro hex hov
    simp [Download.download, hex, hov]
  · intro hov hpar href habs c hcls
    have hcond : (!env.pathExists || d.config.overwrite) = true := by
      simp [hov]
    simp only [Download.download, hcond, if_true]
    have : download_asset d.key d.asset d.path d.config (some d.owner) true env =
        (match env.fetch with
        | .error e =>
          { msgs := [Message.startAssetDownload d.key (some d.owner.id) href d.path,
              Message.errorAssetDownload d.key href d.path e]
            opened := [href]
            result := .error e }
        | .ok () =>
          { msgs := [Message.startAssetDownload d.key (some d.owner.id) href d.path,
              Message.finishAssetDownload d.key href d.path]
            opened := [href]
            wrote := [d.path]
            result := .ok { d.asset with href := d.path } }) := by
      simp [download_asset, hpar, habs, hcls]
    rw [this]
    cases hf : env.fetch with
    | ok u =>
      cases u
      by_cases hff : d.config.fail_fast = true <;> simp [hff]
    | error e =>
      by_cases hff : d.config.fail_fast = true <;> simp [hff]

/-- Witness for C4: a concrete existing-destination skip and a concrete
overwrite re-fetch. -/
theorem claim4_overwrite_skip_witness :
    (Download.download
      { owner := { id := "it" }, key := "a",
        asset := { href := "http://e.com/x.tif" },
        path := "out/x.tif", config := {} }
      true { pathExists := true }).opened = [] ∧
    (Download.download
      { owner := { id := "it" }, key := "a",
        asset := { href := "http://e.com/x.tif" },
        path := "out/x.tif", config := { overwrite := true } }
      true { pathExists := true }).opened = ["http://e.com/x.tif"] := by
  constructor
  · exact ((claim4_overwrite_skip
      { owner := { id := "it" }, key := "a",
        asset := { href := "http://e.com/x.tif" },
        path := "out/x.tif", config := {} }
      { pathExists := true }).1 rfl rfl).1
  · exact (claim4_overwrite_skip
      { owner := { id := "it" }, key := "a",
        asset := { href := "http://e.com/x.tif" },
        path := "out/x.tif", config := { overwrite := true } }
      { pathExists := true }).2 rfl rfl "http://e.com/x.tif" rfl .HttpClient rfl

/-- **C8 (amended).** For every asset whose download succeeds
(including the skip case), the in-memory asset URI is rewritten to the
destination path exactly as given — so the rewritten URI is absolute
precisely when the destination path is, and a relative destination root
yields a relative URI, not an absolute one. -/
theorem claim8_href_rewrite (d : Download) (env : TaskEnv) (messages : Bool)
    (r : Download) (h : (d.download messages env).result = .ok (.inl r)) :
    r.asset.href = d.path ∧
    is_absolute_href r.asset.href = is_absolute_href d.path := by
  have hr : r = { d with asset := { d.asset with href := d.path } } := by
    simp only [Download.download] at h
    split at h
    · cases hres :
        (download_asset d.key d.asset d.path d.config (some d.owner) messages env).result with
      | error e =>
        rw [hres] at h
        by_cases hff : d.config.fail_fast = true <;> simp [hff] at h
      | ok a =>
        rw [hres] at h
        simp at h
        exact h.symm
    · simp at h
      exact h.symm
  rw [hr]
  exact ⟨rfl, rfl⟩

/-- Counterexample to C8 as stated: a successful download into the
relative destination root `out` rewrites the asset URI to
`out/data.tif`, which is not an absolute local path. -/
theorem claim8_counterexample :
    (Download.download
      { owner := { id := "it" }, key := "a",
        asset := { href := "http://e.com/data.tif" },
        path := "out/data.tif", config := {} }
      true { pathExists := false }).result =
      .ok (.inl
        { owner := { id := "it" }, key := "a",
          asset := { href := "out/data.tif" },
          path := "out/data.tif", config := {} }) ∧
    is_absolute_href "out/data.tif" = false :=
  ⟨rfl, by decide⟩

/-- Witness for C8 (amended): a successful download into an absolute
destination rewrites the href to exactly that destination path. -/
theorem claim8_href_rewrite_witness :
    ({ owner := { id := "it" }, key := "a",
        asset := { href := "/abs/out/x.tif" },
        path := "/abs/out/x.tif", config := {} } : Download).asset.href =
      "/abs/out/x.tif" ∧
    is_absolute_href
      (({ owner := { id := "it" }, key := "a",
          asset := { href := "/abs/out/x.tif" },
          path := "/abs/out/x.tif", config := {} } : Download).asset.href) =
      is_absolute_href "/abs/out/x.tif" :=
  claim8_href_rewrite
    { owner := { id := "it" }, key := "a",
      asset := { href := "http://e.com/x.tif" },
      path := "/abs/out/x.tif", config := {} }
    { pathExists := false } true
    { owner := { id := "it" }, key := "a",
      asset := { href := "/abs/out/x.tif" },
      path := "/abs/out/x.tif", config := {} }
    rfl

/-- The alternate-selection loop picks the entry of the first configured
name present in the asset's `alternate` map. -/
theorem pickAlternate_eq_find (alt : List (String × AlternateEntry))
    (names : List String) :
    get_absolute_asset_href.pickAlternate alt names =
      (names.find? (fun a => (alt.lookup a).isSome)).bind (fun a => alt.lookup a) := by
  induction names with
  | nil => rfl
  | cons a rest ih =>
    unfold get_absolute_asset_href.pickAlternate
    cases h : alt.lookup a with
    | some e => simp [List.find?_cons, h]
    | none => simp [List.find?_cons, h, ih]

/-- **C7.** For an asset carrying an alternate-URI map and a config
naming preferred alternates, resolution greedily selects the entry of
the first configured alternate name present in the map: its href
determines both the fetched URI (`get_absolute_asset_href`) and the
chosen backend with the substituted asset href (`guess_client_class`);
an entry missing its `href` field raises a hard `ValueError` in both. -/
theorem claim7_alternate_resolution (asset : Asset) (config : Config)
    (owner : Option StacObject) (alt : List (String × AlternateEntry))
    (a : String) (entry : AlternateEntry)
    (halt : asset.alternate = some alt)
    (hne : alt.isEmpty = false) (hcfg : config.alternate_assets.isEmpty = false)
    (hfirst : config.alternate_assets.find? (fun x => (alt.lookup x).isSome) = some a)
    (hentry : alt.lookup a = some entry) :
    (∀ href, entry.lookup "href" = some href →
      get_absolute_asset_href asset config.alternate_assets owner =
        .ok (some (make_absolute_href href
          (match owner with | some o => o.self_href | none => none) false)) ∧
      (∀ c, guess_client_class_from_href href = .ok c →
        guess_client_class asset config = .ok (c, { asset with href := href }))) ∧
    (entry.lookup "href" = none →
      get_absolute_asset_href asset config.alternate_assets owner =
        .error (.valueError "invalid alternate asset definition (missing href)") ∧
      guess_client_class asset config =
        .error (.valueError "invalid alternate asset definition (missing href)")) := by
  have hpick :
      get_absolute_asset_href.pickAlternate alt config.alternate_assets = some entry := by
    rw [pickAlternate_eq_find, hfirst]
    simpa using hentry
  constructor
  · intro href hhref
    constructor
    · simp [get_absolute_asset_href, halt, hne, hcfg, hpick, hhref]
    · intro c hc
      simp [guess_client_class, halt, hne, hcfg, hpick, hhref, hc, Bind.bind,
        Except.bind]
  · intro hhref
    constructor
    · simp [get_absolute_asset_href, halt, hne, hcfg, hpick, hhref]
    · simp [guess_client_class, halt, hne, hcfg, hpick, hhref]

/-- Witness for C7: the spec's own example — an asset with
`alternate = {"s3": {"href": "s3://bucket/key"}}` and
`alternate_assets = ["s3"]` resolves to the `s3://` URI and the S3
backend instead of the declared href. -/
theorem claim7_alternate_resolution_witness :
    get_absolute_asset_href
      { href := "http://mirror/x.tif",
        alternate := some [("s3", [("href", "s3://bucket/key")])] }
      ["s3"] none = .ok (some "s3://bucket/key") ∧
    guess_client_class
      { href := "http://mirror/x.tif",
        alternate := some [("s3", [("href", "s3://bucket/key")])] }
      { alternate_assets := ["s3"] } =
      .ok (.S3Client,
        { href := "s3://bucket/key",
          alternate := some [("s3", [("href", "s3://bucket/key")])] }) := by
  have h := (claim7_alternate_resolution
    { href := "http://mirror/x.tif",
      alternate := some [("s3", [("href", "s3://bucket/key")])] }
    { alternate_assets := ["s3"] } none
    [("s3", [("href", "s3://bucket/key")])] "s3" [("href", "s3://bucket/key")]
    rfl rfl rfl rfl rfl).1 "s3://bucket/key" rfl
  exact ⟨h.1.trans rfl, h.2 .S3Client rfl⟩

/-- The destination file names of the in-scope assets, in iteration
order (what the loop of `Downloads.add` computes). -/
def inScopeFileNames (config : Config) : List (String × Asset) → List String
  | [] => []
  | (k, a) :: rest =>
    if inScope config k then assetFileName config k a :: inScopeFileNames config rest
    else inScopeFileNames config rest

/-- Walk a list of file names accumulating the ones seen so far; at the
first name already seen, return the accumulated set together with the
colliding name. -/
def firstCollision (seen : List String) : List String → Option (List String × String)
  | [] => none
  | n :: rest =>
    if seen.contains n then some (seen, n) else firstCollision (seen ++ [n]) rest

/-- The colliding name reported by `firstCollision` is among the names
accumulated before the collision. -/
theorem firstCollision_mem :
    ∀ (names seen s : List String) (n : String),
      firstCollision seen names = some (s, n) → n ∈ s := by
  intro names
  induction names with
  | nil => intro seen s n h; simp [firstCollision] at h
  | cons m rest ih =>
    intro seen s n h
    unfold firstCollision at h
    by_cases hc : seen.contains m
    · rw [if_pos hc] at h
      obtain ⟨rfl, rfl⟩ : seen = s ∧ m = n := by simpa using h
      simpa using hc
    · rw [if_neg hc] at h
      exact ih _ _ _ h

/-- The asset loop of `Downloads.add` raises `AssetOverwriteError` with
the accumulated names exactly when `firstCollision` fires on the
in-scope file names, and succeeds otherwise. -/
theorem addLoop_collision (config : Config) :
    ∀ (assets : List (String × Asset)) (seen : List String),
      (∀ s n, firstCollision seen (inScopeFileNames config assets) = some (s, n) →
        addLoop config assets seen = .error (.assetOverwriteError s)) ∧
      (firstCollision seen (inScopeFileNames config assets) = none →
        ∃ out, addLoop config assets seen = .ok out) := by
  intro assets
  induction assets with
  | nil =>
    intro seen
    exact ⟨fun s n h => by simp [inScopeFileNames, firstCollision] at h,
      fun _ => ⟨_, rfl⟩⟩
  | cons ka rest ih =>
    obtain ⟨k, a⟩ := ka
    intro seen
    by_cases hs : inScope config k
    · constructor
      · intro s n h
        rw [inScopeFileNames, if_pos hs] at h
        unfold firstCollision at h
        unfold addLoop
        rw [if_pos hs]
        by_cases hc : seen.contains (assetFileName config k a) = true
        · rw [if_pos hc] at h
          obtain ⟨rfl, rfl⟩ : seen = s ∧ assetFileName config k a = n := by simpa using h
          rw [if_pos hc]
        · rw [if_neg hc] at h
          have hrec := (ih (seen ++ [assetFileName config k a])).1 s n h
          rw [if_neg hc, hrec]
      · intro h
        rw [inScopeFileNames, if_pos hs] at h
        unfold firstCollision at h
        unfold addLoop
        rw [if_pos hs]
        by_cases hc : seen.contains (assetFileName config k a) = true
        · rw [if_pos hc] at h
          cases h
        · rw [if_neg hc] at h
          obtain ⟨out, hout⟩ := (ih (seen ++ [assetFileName config k a])).2 h
          rw [if_neg hc, hout]
          exact ⟨_, rfl⟩
    · rw [inScopeFileNames, if_neg hs]
      unfold addLoop
      rw [if_neg hs]
      exact ih seen

/-- **C1 (amended).** When two in-scope assets' computed destination
file names are equal, `Downloads.add` raises `AssetOverwriteError`
during planning — before any download task is created, so before any
network I/O — but the error lists the distinct file names registered
before the first collision (the first colliding name is among them),
not every colliding file name. -/
theorem claim1_naming_collision (ds : Downloads) (stac_object soA soB : StacObject)
    (root : String) (file_name : Option String) (keep_non_downloaded : Bool)
    (seen : List String) (n : String)
    (hlink : make_link_hrefs_absolute stac_object = .ok soA)
    (hassets : make_asset_hrefs_absolute soA = .ok soB)
    (hcol : firstCollision [] (inScopeFileNames ds.config soB.assets) = some (seen, n)) :
    Downloads.add ds stac_object root file_name keep_non_downloaded =
      .error (.assetOverwriteError seen) ∧
    n ∈ seen := by
  refine ⟨?_, firstCollision_mem _ _ _ _ hcol⟩
  have hloop : addLoop ds.config soB.assets [] = .error (.assetOverwriteError seen) :=
    (addLoop_collision ds.config soB.assets []).1 seen n hcol
  unfold Downloads.add
  simp only [hlink, hassets]
  cases hsh : soB.self_href with
  | none => simp [hsh, hloop]
  | some s => by_cases he : s.isEmpty <;> simp [hsh, he, hloop]

/-- Witness for C1 (amended): a concrete batch with colliding names
`x.tif` raises `AssetOverwriteError` listing the one name registered
before the collision. -/
theorem claim1_naming_collision_witness :
    Downloads.add { config := {}, max_concurrent_downloads := 500 }
      { id := "it",
        assets := [("a", { href := "http://e.com/1/x.tif" }),
                   ("b", { href := "http://e.com/2/x.tif" })],
        self_href := some "/meta/it.json" }
      "out" none false = .error (.assetOverwriteError ["x.tif"]) ∧
    "x.tif" ∈ ["x.tif"] :=
  claim1_naming_collision { config := {}, max_concurrent_downloads := 500 }
    { id := "it",
      assets := [("a", { href := "http://e.com/1/x.tif" }),
                 ("b", { href := "http://e.com/2/x.tif" })],
      self_href := some "/meta/it.json" }
    { id := "it",
      assets := [("a", { href := "http://e.com/1/x.tif" }),
                 ("b", { href := "http://e.com/2/x.tif" })],
      self_href := some "/meta/it.json" }
    { id := "it",
      assets := [("a", { href := "http://e.com/1/x.tif" }),
                 ("b", { href := "http://e.com/2/x.tif" })],
      self_href := some "/meta/it.json" }
    "out" none false ["x.tif"] "x.tif" rfl rfl rfl

/-- Counterexample to C1 as stated: assets `c` and `d` are in scope and
both resolve to the destination name `y.tif`, yet the raised
`AssetOverwriteError` lists only `x.tif` (the name registered before the
first collision) — not every colliding file name. -/
theorem claim1_counterexample :
    Downloads.add { config := {}, max_concurrent_downloads := 500 }
      { id := "it",
        assets := [("a", { href := "http://e.com/1/x.tif" }),
                   ("b", { href := "http://e.com/2/x.tif" }),
                   ("c", { href := "http://e.com/3/y.tif" }),
                   ("d", { href := "http://e.com/4/y.tif" })],
        self_href := some "/meta/it.json" }
      "out" none false = .error (.assetOverwriteError ["x.tif"]) ∧
    inScope {} "c" = true ∧ inScope {} "d" = true ∧
    assetFileName {} "c" { href := "http://e.com/3/y.tif" } =
      assetFileName {} "d" { href := "http://e.com/4/y.tif" } ∧
    "y.tif" ∉ (["x.tif"] : List String) :=
  ⟨rfl, rfl, rfl, rfl, by decide⟩

/-- The wrapped per-asset failures among the settled results. -/
def wrappedResults (results : List (Download ⊕ WrappedError)) : List WrappedError :=
  results.filterMap fun r => match r with | .inr w => some w | .inl _ => none

/-- The keys of the successfully downloaded assets among the results. -/
def successKeys (results : List (Download ⊕ WrappedError)) : List String :=
  results.filterMap fun r => match r with | .inl d => some d.key | .inr _ => none

/-- `assocUpdate` never changes which keys are present. -/
theorem lookup_assocUpdate_none :
    ∀ (l : List (String × Asset)) (k k' : String) (v : Asset),
      ((assocUpdate k' v l).lookup k = none ↔ l.lookup k = none) := by
  intro l
  induction l with
  | nil => intro k k' v; simp [assocUpdate]
  | cons p rest ih =>
    intro k k' v
    obtain ⟨k₁, v₁⟩ := p
    have hIH := ih k k' v
    simp only [assocUpdate, List.map_cons] at hIH ⊢
    by_cases h : k₁ = k'
    · rw [if_pos h]
      by_cases hk : k = k₁ <;>
        simp [List.lookup_cons, hk, beq_false_of_ne, hIH]
    · rw [if_neg h]
      by_cases hk : k = k₁ <;>
        simp [List.lookup_cons, hk, beq_false_of_ne, hIH]

/-- `assocUpdate` at a different key does not change a lookup. -/
theorem lookup_assocUpdate_ne :
    ∀ (l : List (String × Asset)) (k k' : String) (v : Asset), k ≠ k' →
      (assocUpdate k' v l).lookup k = l.lookup k := by
  intro l
  induction l with
  | nil => intro k k' v _; simp [assocUpdate]
  | cons p rest ih =>
    intro k k' v hne
    obtain ⟨k₁, v₁⟩ := p
    have hIH := ih k k' v hne
    simp only [assocUpdate, List.map_cons] at hIH ⊢
    by_cases h : k₁ = k'
    · rw [if_pos h]
      have hk : k ≠ k₁ := fun hkk => hne (hkk.trans h)
      simp [List.lookup_cons, beq_false_of_ne hk, hIH]
    · rw [if_neg h]
      by_cases hk : k = k₁ <;>
        simp [List.lookup_cons, hk, beq_false_of_ne, hIH]

/-- Erasing a key makes its lookup `none`. -/
theorem lookup_assocErase_self :
    ∀ (l : List (String × Asset)) (k : String), (assocErase k l).lookup k = none := by
  intro l
  induction l with
  | nil => intro k; simp [assocErase]
  | cons p rest ih =>
    intro k
    obtain ⟨k₁, v₁⟩ := p
    have hIH := ih k
    simp only [assocErase, List.filter_cons] at hIH ⊢
    by_cases h : k₁ = k
    · have hd : (decide (k₁ ≠ k)) = false := by simpa using h
      rw [hd, if_neg (by simp : ¬(false = true))]
      exact hIH
    · have hd : (decide (k₁ ≠ k)) = true := by simpa using h
      rw [hd, if_pos rfl]
      simp only [List.lookup_cons, beq_false_of_ne (fun hh => h hh.symm)]
      exact hIH

/-- Erasing some key preserves an absent lookup. -/
theorem lookup_assocErase_none :
    ∀ (l : List (String × Asset)) (k k₀ : String), l.lookup k = none →
      (assocErase k₀ l).lookup k = none := by
  intro l
  induction l with
  | nil => intro k k₀ _; simp [assocErase]
  | cons p rest ih =>
    intro k k₀ hnone
    obtain ⟨k₁, v₁⟩ := p
    simp only [assocErase, List.filter_cons]
    by_cases hk : k = k₁
    · subst hk
      simp [List.lookup_cons] at hnone
    · simp only [List.lookup_cons, beq_false_of_ne hk] at hnone
      by_cases h : k₁ = k₀
      · have hd : (decide (k₁ ≠ k₀)) = false := by simpa using h
        rw [hd, if_neg (by simp : ¬(false = true))]
        exact ih k k₀ hnone
      · have hd : (decide (k₁ ≠ k₀)) = true := by simpa using h
        rw [hd, if_pos rfl]
        simp only [List.lookup_cons, beq_false_of_ne hk]
        exact ih k k₀ hnone

/-- Erasing a different key does not change a lookup. -/
theorem lookup_assocErase_ne :
    ∀ (l : List (String × Asset)) (k k₀ : String), k ≠ k₀ →
      (assocErase k₀ l).lookup k = l.lookup k := by
  intro l
  induction l with
  | nil => intro k k₀ _; simp [assocErase]
  | cons p rest ih =>
    intro k k₀ hne
    obtain ⟨k₁, v₁⟩ := p
    have hIH := ih k k₀ hne
    simp only [assocErase, List.filter_cons] at hIH ⊢
    by_cases h : k₁ = k₀
    · have hd : (decide (k₁ ≠ k₀)) = false := by simpa using h
      rw [hd, if_neg (by simp : ¬(false = true))]
      have hk : k ≠ k₁ := fun hkk => hne (hkk.trans h)
      rw [hIH]
      simp only [List.lookup_cons, beq_false_of_ne hk]
    · have hd : (decide (k₁ ≠ k₀)) = true := by simpa using h
      rw [hd, if_pos rfl]
      by_cases hk : k = k₁
      · subst hk
        simp [List.lookup_cons]
      · simp only [List.lookup_cons, beq_false_of_ne hk]
        exact hIH

/-- With `warn` set, the result-processing loop turns every failure into
a warning (in order) and collects no exception. -/
theorem processResults_warn (config : Config) (hw : config.warn = true) :
    ∀ (results : List (Download ⊕ WrappedError)) (owner : StacObject)
      (ws es : List Err),
      (processResults config owner ws es results).2.1 =
        ws ++ (wrappedResults results).map WrappedError.error ∧
      (processResults config owner ws es results).2.2 = es := by
  intro results
  induction results with
  | nil => intro owner ws es; simp [processResults, wrappedResults]
  | cons r rest ih =>
    intro owner ws es
    cases r with
    | inl d => simpa [processResults, wrappedResults] using ih _ ws es
    | inr w =>
      have := ih (if config.error_strategy = .DELETE then
        { owner with assets := assocErase w.download.key owner.assets } else owner)
        (ws ++ [w.error]) es
      simpa [processResults, wrappedResults, hw] using this

/-- With `warn` unset, the result-processing loop emits no warning and
collects every failure, in order. -/
theorem processResults_noWarn (config : Config) (hw : config.warn = false) :
    ∀ (results : List (Download ⊕ WrappedError)) (owner : StacObject)
      (ws es : List Err),
      (processResults config owner ws es results).2.1 = ws ∧
      (processResults config owner ws es results).2.2 =
        es ++ (wrappedResults results).map WrappedError.error := by
  intro results
  induction results with
  | nil => intro owner ws es; simp [processResults, wrappedResults]
  | cons r rest ih =>
    intro owner ws es
    cases r with
    | inl d => simpa [processResults, wrappedResults] using ih _ ws es
    | inr w =>
      have := ih (if config.error_strategy = .DELETE then
        { owner with assets := assocErase w.download.key owner.assets } else owner)
        ws (es ++ [w.error])
      simpa [processResults, wrappedResults, hw] using this

/-- The result-processing loop never re-introduces an absent key. -/
theorem processResults_lookup_none (config : Config) :
    ∀ (results : List (Download ⊕ WrappedError)) (owner : StacObject)
      (ws es : List Err) (k : String), owner.assets.lookup k = none →
      ((processResults config owner ws es results).1).assets.lookup k = none := by
  intro results
  induction results with
  | nil => intro owner ws es k h; simpa [processResults] using h
  | cons r rest ih =>
    intro owner ws es k h
    cases r with
    | inl d =>
      exact ih _ ws es k ((lookup_assocUpdate_none _ _ _ _).mpr h)
    | inr w =>
      by_cases hd : config.error_strategy = .DELETE <;>
        by_cases hw : config.warn = true <;>
          simp only [processResults, hd, hw, if_true, if_false, if_pos, if_neg] <;>
          first
            | exact ih _ _ _ k (lookup_assocErase_none _ _ _ h)
            | exact ih _ _ _ k h

/-- With the `DELETE` strategy, the result-processing loop removes every
failed asset's key from the owner, whether warning or collecting. -/
theorem processResults_delete (config : Config)
    (hd : config.error_strategy = .DELETE) :
    ∀ (results : List (Download ⊕ WrappedError)) (owner : StacObject)
      (ws es : List Err), ∀ w ∈ wrappedResults results,
      ((processResults config owner ws es results).1).assets.lookup
        w.download.key = none := by
  intro results
  induction results with
  | nil => intro owner ws es w hw; simp [wrappedResults] at hw
  | cons r rest ih =>
    intro owner ws es w hw
    cases r with
    | inl d =>
      have hw' : w ∈ wrappedResults rest := by simpa [wrappedResults] using hw
      exact ih _ ws es w hw'
    | inr w₀ =>
      rcases (by simpa [wrappedResults] using hw : w = w₀ ∨ w ∈ wrappedResults rest)
        with rfl | hw'
      · have herase : (assocErase w.download.key owner.assets).lookup
            w.download.key = none := lookup_assocErase_self _ _
        by_cases hwarn : config.warn = true <;>
          simp only [processResults, hd, hwarn, if_true, if_pos, if_neg] <;>
          exact processResults_lookup_none config rest _ _ _ _
            (by simpa [hd] using herase)
      · by_cases hwarn : config.warn = true <;>
          simp only [processResults, hd, hwarn] <;>
          exact ih _ _ _ w hw'

/-- `successKeys` unfolding: a success contributes its key. -/
theorem successKeys_cons_inl (d : Download)
    (rest : List (Download ⊕ WrappedError)) :
    successKeys (.inl d :: rest) = d.key :: successKeys rest := by
  simp [successKeys]

/-- `successKeys` unfolding: a failure contributes nothing. -/
theorem successKeys_cons_inr (w : WrappedError)
    (rest : List (Download ⊕ WrappedError)) :
    successKeys (.inr w :: rest) = successKeys rest := by
  simp [successKeys]

/-- With the `KEEP` strategy, the result-processing loop leaves every
key outside the successful set untouched. -/
theorem processResults_keep (config : Config)
    (hk : config.error_strategy = .KEEP) :
    ∀ (results : List (Download ⊕ WrappedError)) (owner : StacObject)
      (ws es : List Err) (k : String), k ∉ successKeys results →
      ((processResults config owner ws es results).1).assets.lookup k =
        owner.assets.lookup k := by
  intro results
  induction results with
  | nil => intro owner ws es k _; simp [processResults]
  | cons r rest ih =>
    intro owner ws es k hns
    cases r with
    | inl d =>
      rw [successKeys_cons_inl] at hns
      have hne : k ≠ d.key := fun h => hns (h ▸ List.mem_cons_self _ _)
      have hrest : k ∉ successKeys rest := fun hmem =>
        hns (List.mem_cons_of_mem _ hmem)
      rw [processResults, ih _ ws es k hrest]
      simpa using lookup_assocUpdate_ne owner.assets k d.key d.asset hne
    | inr w =>
      rw [successKeys_cons_inr] at hns
      have hstrat : ¬config.error_strategy = .DELETE := by simp [hk]
      by_cases hwarn : config.warn = true <;>
        simp only [processResults, hstrat, hwarn, if_neg, if_pos, if_true,
          if_false] <;>
        exact ih _ _ _ k hns

/-- Without `fail_fast`, a download task never raises: it returns its
`Download` or a `WrappedError`. -/
theorem download_result_ok (d : Download) (messages : Bool) (env : TaskEnv)
    (hff : d.config.fail_fast = false) :
    ∃ r, (d.download messages env).result = .ok r := by
  simp only [Download.download]
  split
  · cases hres :
      (download_asset d.key d.asset d.path d.config (some d.owner) messages env).result with
    | error e => simp [hff]
    | ok a => simp
  · simp

/-- When no task's config has `fail_fast`, the pool raises nothing and
every task runs to completion. -/
theorem runTasks_all_completed (messages : Bool) :
    ∀ pairs : List (Download × TaskEnv),
      (∀ p ∈ pairs, p.1.config.fail_fast = false) →
      (runTasks messages pairs).raised = none ∧
      ∀ t ∈ (runTasks messages pairs).tasks, ∃ r, t = .completed r := by
  intro pairs
  induction pairs with
  | nil => intro _; exact ⟨rfl, by simp [runTasks]⟩
  | cons p rest ih =>
    intro hff
    obtain ⟨d, env⟩ := p
    obtain ⟨r, hr⟩ := download_result_ok d messages env
      (hff (d, env) (List.mem_cons_self _ _))
    obtain ⟨ihr, ihall⟩ := ih fun q hq => hff q (List.mem_cons_of_mem _ hq)
    simp only [runTasks, hr]
    refine ⟨ihr, ?_⟩
    intro t ht
    rcases List.mem_cons.mp ht with rfl | ht'
    · exact ⟨r, rfl⟩
    · exact ihall t ht'

/-- **C3 (amended).** After all download tasks settle (nothing is
raised mid-batch without `fail_fast`): under `warn` every failure is
surfaced as a warning, in order, and nothing is raised; without `warn`
(the FAIL case) no warning is emitted and all failures are collected
into one aggregate `DownloadError`, raised only after every task has
settled.  Asset removal is governed by the error strategy *independently
of* `warn`: `DELETE` removes every failed asset from its owner (even in
the FAIL case), while `KEEP` leaves every key outside the successful set
— in particular every failed asset — untouched at its original URI. -/
theorem claim3_error_strategy (ds : Downloads) (owner : StacObject)
    (envs : List TaskEnv) (messages : Bool)
    (hff : ∀ d ∈ ds.downloads, d.config.fail_fast = false) :
    (∀ t ∈ (Downloads.download ds owner envs messages).tasks,
      ∃ r, t = .completed r) ∧
    (ds.config.warn = true →
      (Downloads.download ds owner envs messages).warnings =
        (wrappedResults (collectResults
          (Downloads.download ds owner envs messages).tasks)).map
          WrappedError.error ∧
      (Downloads.download ds owner envs messages).result = .ok ()) ∧
    (ds.config.warn = false →
      (Downloads.download ds owner envs messages).warnings = [] ∧
      (wrappedResults (collectResults
          (Downloads.download ds owner envs messages).tasks) = [] →
        (Downloads.download ds owner envs messages).result = .ok ()) ∧
      (∀ w ws, wrappedResults (collectResults
          (Downloads.download ds owner envs messages).tasks) = w :: ws →
        (Downloads.download ds owner envs messages).result =
          .error (.downloadError ((w :: ws).map WrappedError.error)))) ∧
    (ds.config.error_strategy = .DELETE →
      ∀ w ∈ wrappedResults (collectResults
          (Downloads.download ds owner envs messages).tasks),
        (Downloads.download ds owner envs messages).owner.assets.lookup
          w.download.key = none) ∧
    (ds.config.error_strategy = .KEEP →
      ∀ k, k ∉ successKeys (collectResults
          (Downloads.download ds owner envs messages).tasks) →
        (Downloads.download ds owner envs messages).owner.assets.lookup k =
          owner.assets.lookup k) := by
  have hz : ∀ p ∈ ds.downloads.zip envs, p.1.config.fail_fast = false := by
    intro p hp
    exact hff p.1 (List.of_mem_zip hp).1
  obtain ⟨hraised, hall⟩ := runTasks_all_completed messages (ds.downloads.zip envs) hz
  have hout : Downloads.download ds owner envs messages =
      { result :=
          if (processResults ds.config owner [] []
              (collectResults (runTasks messages (ds.downloads.zip envs)).tasks)).2.2.isEmpty
          then .ok ()
          else .error (.downloadError (processResults ds.config owner [] []
            (collectResults (runTasks messages (ds.downloads.zip envs)).tasks)).2.2),
        tasks := (runTasks messages (ds.downloads.zip envs)).tasks,
        owner := (processResults ds.config owner [] []
          (collectResults (runTasks messages (ds.downloads.zip envs)).tasks)).1,
        warnings := (processResults ds.config owner [] []
          (collectResults (runTasks messages (ds.downloads.zip envs)).tasks)).2.1,
        msgs := (runTasks messages (ds.downloads.zip envs)).msgs,
        opened := (runTasks messages (ds.downloads.zip envs)).opened,
        wrote := (runTasks messages (ds.downloads.zip envs)).wrote } := by
    simp only [Downloads.download, hraised]
  refine ⟨?_, ?_, ?_, ?_, ?_⟩
  · rw [hout]
    exact hall
  · intro hw
    obtain ⟨h1, h2⟩ := processResults_warn ds.config hw
      (collectResults (runTasks messages (ds.downloads.zip envs)).tasks) owner [] []
    rw [hout]
    refine ⟨by simpa using h1, ?_⟩
    simp [h2]
  · intro hw
    obtain ⟨h1, h2⟩ := processResults_noWarn ds.config hw
      (collectResults (runTasks messages (ds.downloads.zip envs)).tasks) owner [] []
    rw [hout]
    refine ⟨by simpa using h1, ?_, ?_⟩
    · intro hempty
      simp [h2, hempty]
    · intro w ws hcons
      simp [h2, hcons]
  · intro hd w hw
    rw [hout] at hw ⊢
    exact processResults_delete ds.config hd _ owner [] [] w hw
  · intro hk k hks
    rw [hout] at hks ⊢
    exact processResults_keep ds.config hk _ owner [] [] k hks

/-- Witness for C3 (amended): a one-asset batch whose fetch fails under
`warn` + `KEEP` surfaces the failure as a warning, raises nothing, and
leaves the asset untouched in its owner. -/
theorem claim3_error_strategy_witness :
    (Downloads.download
      { config := { warn := true, error_strategy := .KEEP },
        downloads := [
          { owner :=
              { id := "it",
                assets := [("a", { href := "http://e.com/x.tif" })] },
            key := "a", asset := { href := "http://e.com/x.tif" },
            path := "out/x.tif",
            config := { warn := true, error_strategy := .KEEP } }],
        max_concurrent_downloads := 500 }
      { id := "it", assets := [("a", { href := "http://e.com/x.tif" })] }
      [{ pathExists := false, fetch := .error (.clientError "connection refused") }]
      false).warnings = [.clientError "connection refused"] ∧
    (Downloads.download
      { config := { warn := true, error_strategy := .KEEP },
        downloads := [
          { owner :=
              { id := "it",
                assets := [("a", { href := "http://e.com/x.tif" })] },
            key := "a", asset := { href := "http://e.com/x.tif" },
            path := "out/x.tif",
            config := { warn := true, error_strategy := .KEEP } }],
        max_concurrent_downloads := 500 }
      { id := "it", assets := [("a", { href := "http://e.com/x.tif" })] }
      [{ pathExists := false, fetch := .error (.clientError "connection refused") }]
      false).result = .ok () ∧
    (Downloads.download
      { config := { warn := true, error_strategy := .KEEP },
        downloads := [
          { owner :=
              { id := "it",
                assets := [("a", { href := "http://e.com/x.tif" })] },
            key := "a", asset := { href := "http://e.com/x.tif" },
            path := "out/x.tif",
            config := { warn := true, error_strategy := .KEEP } }],
        max_concurrent_downloads := 500 }
      { id := "it", assets := [("a", { href := "http://e.com/x.tif" })] }
      [{ pathExists := false, fetch := .error (.clientError "connection refused") }]
      false).owner.assets.lookup "a" =
      ({ id := "it",
         assets := [("a", { href := "http://e.com/x.tif" })] } :
          StacObject).assets.lookup "a" := by
  have h := claim3_error_strategy
    { config := { warn := true, error_strategy := .KEEP },
      downloads := [
        { owner :=
            { id := "it",
              assets := [("a", { href := "http://e.com/x.tif" })] },
          key := "a", asset := { href := "http://e.com/x.tif" },
          path := "out/x.tif",
          config := { warn := true, error_strategy := .KEEP } }],
      max_concurrent_downloads := 500 }
    { id := "it", assets := [("a", { href := "http://e.com/x.tif" })] }
    [{ pathExists := false, fetch := .error (.clientError "connection refused") }]
    false
    (by
      intro d hd
      rcases List.mem_singleton.mp hd with rfl
      rfl)
  obtain ⟨hwarn, hok⟩ := h.2.1 rfl
  exact ⟨hwarn.trans rfl, hok, h.2.2.2.2 rfl "a" (by decide)⟩

/-- Counterexample to C3 as stated: with `warn` unset (the claim's FAIL
policy) and the source's default `DELETE` strategy, a failed asset *is*
removed from its owner — deletion is governed by the error strategy
independently of warning — while the aggregate `DownloadError` is
raised. -/
theorem claim3_counterexample :
    (Downloads.download
      { config := {},
        downloads := [
          { owner :=
              { id := "it",
                assets := [("a", { href := "http://e.com/x.tif" })] },
            key := "a", asset := { href := "http://e.com/x.tif" },
            path := "out/x.tif", config := {} }],
        max_concurrent_downloads := 500 }
      { id := "it", assets := [("a", { href := "http://e.com/x.tif" })] }
      [{ pathExists := false, fetch := .error (.clientError "connection refused") }]
      false).result =
      .error (.downloadError [.clientError "connection refused"]) ∧
    (Downloads.download
      { config := {},
        downloads := [
          { owner :=
              { id := "it",
                assets := [("a", { href := "http://e.com/x.tif" })] },
            key := "a", asset := { href := "http://e.com/x.tif" },
            path := "out/x.tif", config := {} }],
        max_concurrent_downloads := 500 }
      { id := "it", assets := [("a", { href := "http://e.com/x.tif" })] }
      [{ pathExists := false, fetch := .error (.clientError "connection refused") }]
      false).owner.assets = [] :=
  ⟨rfl, rfl⟩

/-- The position and exception of the first raising task among the
per-task results, if any. -/
def firstRaise : List (Except Err (Download ⊕ WrappedError)) → Option (Nat × Err)
  | [] => none
  | .error e :: _ => some (0, e)
  | .ok _ :: rest => (firstRaise rest).map fun p => (p.1 + 1, p.2)

/-- A constant-`cancelled` map reads `cancelled` at every in-range
position. -/
theorem getD_map_cancelled :
    ∀ (l : List (Download × TaskEnv)) (j : Nat) (x : TaskStatus), j < l.length →
      (l.map fun _ => TaskStatus.cancelled).getD j x = .cancelled := by
  intro l
  induction l with
  | nil => intro j x h; cases h
  | cons a l ih =>
    intro j x h
    cases j with
    | zero => rfl
    | succ j' => exact ih j' x (Nat.lt_of_succ_lt_succ h)

/-- The task pool under a first raising task: the pool's raised
exception is that task's, the tasks before it completed, the raising
task settled by raising, and every later task was cancelled (and
awaited); with no raising task, nothing is raised and every task runs to
completion. -/
theorem runTasks_raise (messages : Bool) :
    ∀ pairs : List (Download × TaskEnv),
      (∀ i e,
        firstRaise (pairs.map fun p => (p.1.download messages p.2).result) =
          some (i, e) →
        (runTasks messages pairs).raised = some e ∧
        (runTasks messages pairs).tasks.length = pairs.length ∧
        (∀ j, j < i →
          ∃ r, (runTasks messages pairs).tasks.getD j .cancelled = .completed r) ∧
        (runTasks messages pairs).tasks.getD i .cancelled = .failed e ∧
        (∀ j, i < j → j < pairs.length →
          (runTasks messages pairs).tasks.getD j (.failed e) = .cancelled)) ∧
      (firstRaise (pairs.map fun p => (p.1.download messages p.2).result) = none →
        (runTasks messages pairs).raised = none ∧
        ∀ t ∈ (runTasks messages pairs).tasks, ∃ r, t = .completed r) := by
  intro pairs
  induction pairs with
  | nil =>
    exact ⟨fun i e h => by simp [firstRaise] at h,
      fun _ => ⟨rfl, by simp [runTasks]⟩⟩
  | cons p rest ih =>
    obtain ⟨d, env⟩ := p
    constructor
    · intro i e hfr
      simp only [List.map_cons] at hfr
      cases hres : (d.download messages env).result with
      | error e₀ =>
        rw [hres] at hfr
        simp only [firstRaise] at hfr
        injection hfr with hpair
        injection hpair with h1 h2
        subst h1
        subst h2
        simp only [runTasks, hres]
        refine ⟨by simp, by simp, ?_, rfl, ?_⟩
        · intro j hj
          exact absurd hj (Nat.not_lt_zero j)
        · intro j hj hlen
          cases j with
          | zero => cases hj
          | succ j' =>
            simp only [List.getD_cons_succ]
            exact getD_map_cancelled rest j' _
              (by simpa using Nat.lt_of_succ_lt_succ hlen)
      | ok r =>
        rw [hres] at hfr
        simp only [firstRaise] at hfr
        cases hq :
            firstRaise (List.map (fun p => (p.1.download messages p.2).result) rest) with
        | none =>
          rw [hq] at hfr
          simp only [Option.map_none'] at hfr
          cases hfr
        | some q =>
          obtain ⟨i', e'⟩ := q
          rw [hq] at hfr
          simp only [Option.map_some'] at hfr
          injection hfr with hpair
          injection hpair with h1 h2
          subst h1
          subst h2
          obtain ⟨hraised, hlen, hbefore, hat, hafter⟩ := (ih).1 i' e' hq
          simp only [runTasks, hres]
          refine ⟨hraised, by simpa using hlen, ?_, by simpa using hat, ?_⟩
          · intro j hj
            cases j with
            | zero => exact ⟨r, rfl⟩
            | succ j' =>
              simpa using hbefore j' (Nat.lt_of_succ_lt_succ hj)
          · intro j hj hlen'
            cases j with
            | zero => cases hj
            | succ j' =>
              simpa using hafter j' (Nat.lt_of_succ_lt_succ hj)
                (by simpa using Nat.lt_of_succ_lt_succ hlen')
    · intro hfr
      simp only [List.map_cons] at hfr
      cases hres : (d.download messages env).result with
      | error e₀ =>
        rw [hres] at hfr
        simp [firstRaise] at hfr
      | ok r =>
        rw [hres] at hfr
        simp only [firstRaise] at hfr
        have hfr' :
            firstRaise (List.map (fun p => (p.1.download messages p.2).result) rest) =
              none := by
          cases hq :
              firstRaise (List.map (fun p => (p.1.download messages p.2).result) rest) with
          | none => rfl
          | some q =>
            rw [hq] at hfr
            simp only [Option.map_some'] at hfr
            cases hfr
        obtain ⟨hraised, hall⟩ := (ih).2 hfr'
        simp only [runTasks, hres]
        refine ⟨hraised, ?_⟩
        intro t ht
        rcases List.mem_cons.mp ht with rfl | ht'
        · exact ⟨r, rfl⟩
        · exact hall t ht'

/-- The pool raises nothing when no task's config sets `fail_fast`. -/
theorem firstRaise_none_of_no_fail_fast (messages : Bool) :
    ∀ pairs : List (Download × TaskEnv),
      (∀ p ∈ pairs, p.1.config.fail_fast = false) →
      firstRaise (pairs.map fun p => (p.1.download messages p.2).result) = none := by
  intro pairs
  induction pairs with
  | nil => intro _; rfl
  | cons p rest ih =>
    intro h
    obtain ⟨d, env⟩ := p
    obtain ⟨r, hr⟩ := download_result_ok d messages env
      (h (d, env) (List.mem_cons_self _ _))
    simp only [List.map_cons, hr, firstRaise,
      ih fun q hq => h q (List.mem_cons_of_mem _ hq), Option.map_none']

/-- **C2.** With `fail_fast`, the first task exception propagates: the
batch re-raises exactly it, every earlier task completed, the raising
task settled by raising, and every not-yet-started task was cancelled
and awaited (every task ends in a settled state).  When no task raises —
in particular whenever no download's config sets `fail_fast` — every
task runs to completion, and the only error the batch can surface
afterwards is the aggregate `DownloadError`. -/
theorem claim2_fail_fast (ds : Downloads) (owner : StacObject)
    (envs : List TaskEnv) (messages : Bool) :
    (∀ i e,
      firstRaise ((ds.downloads.zip envs).map fun p =>
        (p.1.download messages p.2).result) = some (i, e) →
      (Downloads.download ds owner envs messages).result = .error e ∧
      (Downloads.download ds owner envs messages).tasks.length =
        (ds.downloads.zip envs).length ∧
      (∀ j, j < i → ∃ r,
        (Downloads.download ds owner envs messages).tasks.getD j .cancelled =
          .completed r) ∧
      (Downloads.download ds owner envs messages).tasks.getD i .cancelled =
        .failed e ∧
      (∀ j, i < j → j < (ds.downloads.zip envs).length →
        (Downloads.download ds owner envs messages).tasks.getD j (.failed e) =
          .cancelled)) ∧
    (firstRaise ((ds.downloads.zip envs).map fun p =>
        (p.1.download messages p.2).result) = none →
      (∀ t ∈ (Downloads.download ds owner envs messages).tasks,
        ∃ r, t = .completed r) ∧
      (∀ e, (Downloads.download ds owner envs messages).result = .error e →
        ∃ excs, e = .downloadError excs)) ∧
    ((∀ d ∈ ds.downloads, d.config.fail_fast = false) →
      firstRaise ((ds.downloads.zip envs).map fun p =>
        (p.1.download messages p.2).result) = none) := by
  refine ⟨?_, ?_, ?_⟩
  · intro i e hfr
    obtain ⟨hraised, hlen, hbefore, hat, hafter⟩ :=
      (runTasks_raise messages (ds.downloads.zip envs)).1 i e hfr
    have hout : Downloads.download ds owner envs messages =
        { result := .error e,
          tasks := (runTasks messages (ds.downloads.zip envs)).tasks,
          owner := applySuccesses owner (runTasks messages (ds.downloads.zip envs)).tasks,
          msgs := (runTasks messages (ds.downloads.zip envs)).msgs,
          opened := (runTasks messages (ds.downloads.zip envs)).opened,
          wrote := (runTasks messages (ds.downloads.zip envs)).wrote } := by
      simp only [Downloads.download, hraised]
    rw [hout]
    exact ⟨rfl, hlen, hbefore, hat, hafter⟩
  · intro hfr
    obtain ⟨hraised, hall⟩ :=
      (runTasks_raise messages (ds.downloads.zip envs)).2 hfr
    have hout : Downloads.download ds owner envs messages =
        { result :=
            if (processResults ds.config owner [] []
                (collectResults (runTasks messages (ds.downloads.zip envs)).tasks)).2.2.isEmpty
            then .ok ()
            else .error (.downloadError (processResults ds.config owner [] []
              (collectResults (runTasks messages (ds.downloads.zip envs)).tasks)).2.2),
          tasks := (runTasks messages (ds.downloads.zip envs)).tasks,
          owner := (processResults ds.config owner [] []
            (collectResults (runTasks messages (ds.downloads.zip envs)).tasks)).1,
          warnings := (processResults ds.config owner [] []
            (collectResults (runTasks messages (ds.downloads.zip envs)).tasks)).2.1,
          msgs := (runTasks messages (ds.downloads.zip envs)).msgs,
          opened := (runTasks messages (ds.downloads.zip envs)).opened,
          wrote := (runTasks messages (ds.downloads.zip envs)).wrote } := by
      simp only [Downloads.download, hraised]
    rw [hout]
    refine ⟨hall, ?_⟩
    intro e he
    simp only at he
    split at he
    · cases he
    · injection he with he'
      exact ⟨_, he'.symm⟩
  · intro hff
    exact firstRaise_none_of_no_fail_fast messages (ds.downloads.zip envs)
      fun p hp => hff p.1 (List.of_mem_zip hp).1

/-- Witness for C2: a two-task batch under `fail_fast` whose first fetch
fails re-raises that exception, settles the first task as raised, and
cancels (and awaits) the second. -/
theorem claim2_fail_fast_witness :
    (Downloads.download
      { config := { fail_fast := true },
        downloads := [
          { owner := { id := "it" }, key := "a",
            asset := { href := "http://e.com/a.tif" },
            path := "out/a.tif", config := { fail_fast := true } },
          { owner := { id := "it" }, key := "b",
            asset := { href := "http://e.com/b.tif" },
            path := "out/b.tif", config := { fail_fast := true } }],
        max_concurrent_downloads := 500 }
      { id := "it" }
      [{ pathExists := false, fetch := .error (.clientError "boom") },
       { pathExists := false }]
      false).result = .error (.clientError "boom") ∧
    (Downloads.download
      { config := { fail_fast := true },
        downloads := [
          { owner := { id := "it" }, key := "a",
            asset := { href := "http://e.com/a.tif" },
            path := "out/a.tif", config := { fail_fast := true } },
          { owner := { id := "it" }, key := "b",
            asset := { href := "http://e.com/b.tif" },
            path := "out/b.tif", config := { fail_fast := true } }],
        max_concurrent_downloads := 500 }
      { id := "it" }
      [{ pathExists := false, fetch := .error (.clientError "boom") },
       { pathExists := false }]
      false).tasks.getD 0 .cancelled = .failed (.clientError "boom") ∧
    (Downloads.download
      { config := { fail_fast := true },
        downloads := [
          { owner := { id := "it" }, key := "a",
            asset := { href := "http://e.com/a.tif" },
            path := "out/a.tif", config := { fail_fast := true } },
          { owner := { id := "it" }, key := "b",
            asset := { href := "http://e.com/b.tif" },
            path := "out/b.tif", config := { fail_fast := true } }],
        max_concurrent_downloads := 500 }
      { id := "it" }
      [{ pathExists := false, fetch := .error (.clientError "boom") },
       { pathExists := false }]
      false).tasks.getD 1 (.failed (.clientError "boom")) = .cancelled := by
  have h := (claim2_fail_fast
    { config := { fail_fast := true },
      downloads := [
        { owner := { id := "it" }, key := "a",
          asset := { href := "http://e.com/a.tif" },
          path := "out/a.tif", config := { fail_fast := true } },
        { owner := { id := "it" }, key := "b",
          asset := { href := "http://e.com/b.tif" },
          path := "out/b.tif", config := { fail_fast := true } }],
      max_concurrent_downloads := 500 }
    { id := "it" }
    [{ pathExists := false, fetch := .error (.clientError "boom") },
     { pathExists := false }]
    false).1 0 (.clientError "boom") rfl
  exact ⟨h.1, h.2.2.2.1, h.2.2.2.2 1 (by decide) (by decide)⟩

/-- Splitting the running count at a distinguished task. -/
theorem countRunning_split (pre post : List TaskPhase) (x : TaskPhase) :
    countRunning (pre ++ x :: post) =
      countRunning pre + countRunning post + (if x = .running then 1 else 0) := by
  simp only [countRunning, List.countP_append, List.countP_cons]
  cases x <;> simp
  omega

/-- The pool invariant: tasks holding a slot plus the semaphore counter
equal the capacity, and the number of tasks never changes. -/
theorem poolInvariant (n m : Nat) :
    ∀ s, PoolReachable n m s → inFlight s + s.value = n ∧ s.phases.length = m := by
  intro s h
  induction h with
  | refl => simp [initPool, inFlight, countRunning, List.countP_replicate]
  | tail hsteps hstep ih =>
    obtain ⟨hinv, hlen⟩ := ih
    cases hstep with
    | acquire v pre post =>
      simp only [inFlight, countRunning_split] at hinv ⊢
      simp only [List.length_append, List.length_cons] at hlen ⊢
      constructor
      · simp at hinv ⊢
        omega
      · omega
    | finish v pre post =>
      simp only [inFlight, countRunning_split] at hinv ⊢
      simp only [List.length_append, List.length_cons] at hlen ⊢
      constructor
      · simp at hinv ⊢
        omega
      · omega
    | cancel v pre post =>
      simp only [inFlight, countRunning_split] at hinv ⊢
      simp only [List.length_append, List.length_cons] at hlen ⊢
      constructor
      · simp at hinv ⊢
        omega
      · omega

/-- **C5.** In every reachable state of the semaphore-guarded task pool
(`download_with_lock` with `Semaphore(max_concurrent_downloads)`), at
most `n` downloads are in flight simultaneously; and once every task has
settled — returned, raised, or been cancelled — the semaphore counter is
fully restored, because every exit path (the `finally`) releases its
slot and a task cancelled while waiting never held one. -/
theorem claim5_concurrency_bound (n m : Nat) (s : PoolState)
    (h : PoolReachable n m s) :
    inFlight s ≤ n ∧ (allSettled s = true → s.value = n) := by
  obtain ⟨hinv, -⟩ := poolInvariant n m s h
  constructor
  · omega
  · intro hset
    have hzero : inFlight s = 0 := by
      simp only [inFlight, countRunning, List.countP_eq_zero]
      intro p hp
      have := (List.all_eq_true.mp hset) p hp
      cases p <;> simp_all
    omega

/-- Witness for C5: from a full semaphore of capacity 1 with two tasks,
after one task acquires the slot, one download is in flight — within the
bound. -/
theorem claim5_concurrency_bound_witness :
    inFlight { value := 0, phases := [.running, .waiting] } ≤ 1 ∧
    (allSettled { value := 0, phases := [.running, .waiting] } = true →
      ({ value := 0, phases := [.running, .waiting] } : PoolState).value = 1) :=
  claim5_concurrency_bound 1 2 _
    (Relation.ReflTransGen.tail Relation.ReflTransGen.refl
      (PoolStep.acquire 0 [] [.waiting]))

end StacAsset
